import Mathlib

/-
  Verification development for the article-crawling and text-processing
  repository (scrapper.py / pipeline.py).

  The Python sources are shallowly embedded as pure Lean functions:
    - `extract_url`        embeds `Crawler._extract_url` (scrapper.py:62-73),
      with the base class `Crawler._add_url` (a plain list append);
    - `RecState`, `add_url`, `update_cache`, `get_cache`, `newCrawler`
      embed the caching recursive crawler `CrawlerRecursive`
      (scrapper.py:97-154); the cache file is modelled as an optional
      string (`none` = file absent), file size zero iff the string is empty;
    - `recurse` embeds `CrawlerRecursive.recurse` with an explicit fuel
      parameter standing for the (unbounded) Python call stack; safety
      theorems are proved for every fuel value, so they cover every
      finite prefix of a real run.  The web is a function from URL to
      fetch outcome (connection error / non-ok response / parsed page);
      `fetched` logs every `_get_page` call in order; `crashed` records
      the uncaught AttributeError raised when an archive page fetch
      returns None and the code calls `page.find_all` on it;
    - `validate_config` embeds scrapper.py:200-229 over a JSON value
      model (`JVal`); Python booleans are folded into integers, as
      `isinstance(True, int)` holds in Python; `re.match` applied to a
      non-string raises TypeError, modelled by `ScrapErr.typeError`;
    - `validate_dataset`, `id_from_path` embed pipeline.py:132-162 over
      a filesystem model (`FS`): a path is missing, a non-directory
      file, or a directory given as a list of (name, size) pairs;
    - `scan_dataset` embeds `CorpusManager._scan_dataset`
      (pipeline.py:69-81), the dict as a function `Nat -> Option PArticle`;
    - `pipeline_process`, `run_article` embed
      `TextProcessingPipeline._process` / `.run` (pipeline.py:92-129),
      with the two external analyzers as function parameters.
-/

/-- Python substring test: `needle in haystack`. -/
def strContains (haystack needle : String) : Bool :=
  (List.range (haystack.data.length + 1)).any fun i =>
    needle.data.isPrefixOf (haystack.data.drop i)

/-- Embeds `Crawler._extract_url` (scrapper.py:62-73): iterate the
file-class link hrefs of a page in page order; skip hrefs containing
"issue"; break when the recorded list has exactly `maxA` entries;
otherwise append (`Crawler._add_url`, scrapper.py:75-76). -/
def extract_url (maxA : Nat) : List String → List String → List String
  | urls, [] => urls
  | urls, h :: t =>
    if strContains h "issue" then extract_url maxA urls t
    else if urls.length == maxA then urls
    else extract_url maxA (urls ++ [h]) t

theorem extract_url_characterization (maxA : Nat) (hrefs : List String) :
    ∀ urls : List String, urls.length ≤ maxA →
      extract_url maxA urls hrefs
        = urls ++ (hrefs.filter fun s => !strContains s "issue").take
            (maxA - urls.length) := by
  induction hrefs with
  | nil => intro urls _; simp [extract_url]
  | cons h t ih =>
    intro urls hle
    by_cases hiss : strContains h "issue" = true
    · rw [extract_url, if_pos hiss, ih urls hle]
      simp [hiss]
    · have hiss2 : strContains h "issue" = false := by
        simpa using hiss
      rcases Nat.lt_or_ge urls.length maxA with hlt | hge
      · have hne : (urls.length == maxA) = false := by
          simp [Nat.ne_of_lt hlt]
        have hlen : (urls ++ [h]).length ≤ maxA := by
          simp only [List.length_append, List.length_cons, List.length_nil]
          omega
        have hsub : maxA - urls.length = (maxA - (urls ++ [h]).length) + 1 := by
          simp only [List.length_append, List.length_cons, List.length_nil]
          omega
        rw [extract_url, if_neg hiss, if_neg (by simp [hne]), ih (urls ++ [h]) hlen,
          hsub, List.filter_cons_of_pos (by simp [hiss2]), List.take_succ_cons]
        simp
      · have heq : urls.length = maxA := Nat.le_antisymm hle hge
        rw [extract_url, if_neg hiss, if_pos (by simp [heq])]
        simp [heq]

theorem extract_url_length_le (maxA : Nat) (hrefs : List String)
    (urls : List String) (hle : urls.length ≤ maxA) :
    (extract_url maxA urls hrefs).length ≤ maxA := by
  rw [extract_url_characterization maxA hrefs urls hle]
  have := List.length_take_le (maxA - urls.length)
    (hrefs.filter fun s => !strContains s "issue")
  simp only [List.length_append]
  omega

/-- Claim C1: starting from a recorded list shorter than `max_articles`,
`_extract_url` records exactly the file-class hrefs not containing
"issue", in page order, truncated so the list stops exactly at
`max_articles`, and the result never exceeds `max_articles`. -/
theorem claim1_extract_url (maxA : Nat) (urls hrefs : List String)
    (h : urls.length < maxA) :
    extract_url maxA urls hrefs
      = urls ++ (hrefs.filter fun s => !strContains s "issue").take
          (maxA - urls.length)
    ∧ (extract_url maxA urls hrefs).length ≤ maxA :=
  ⟨extract_url_characterization maxA hrefs urls (Nat.le_of_lt h),
   extract_url_length_le maxA hrefs urls (Nat.le_of_lt h)⟩

/-- Claim C1 witness: the spec scenario — cap 2, an issue page with three
file links of which one is marked "issue": exactly the first two
non-issue links are recorded, in order, and the third is never reached. -/
theorem claim1_extract_url_witness :
    ([] : List String).length < 2
    ∧ extract_url 2 [] ["u/art1", "u/view/issue2", "u/art2", "u/art3"]
        = [] ++ ((["u/art1", "u/view/issue2", "u/art2", "u/art3"].filter
            fun s => !strContains s "issue").take 2)
    ∧ extract_url 2 [] ["u/art1", "u/view/issue2", "u/art2", "u/art3"]
        = ["u/art1", "u/art2"] :=
  ⟨by decide,
   (claim1_extract_url 2 [] ["u/art1", "u/view/issue2", "u/art2", "u/art3"]
      (by decide)).1,
   by decide⟩

/-- A parsed page, as the crawler queries it: `fileLinks` are the hrefs of
`find_all("a", {"class": "file"})` in page order; `allLinks` are the
anchors of `find_all("a")` in page order, `none` for an anchor with no
href attribute. -/
structure Page where
  fileLinks : List String
  allLinks : List (Option String)
deriving DecidableEq

/-- Outcome of `requests.get` inside `_get_page` (scrapper.py:45-49):
a raised ConnectionError, a non-ok response (the function returns None),
or a parsed page. -/
inductive FetchResult
  | connError
  | notOk
  | ok (p : Page)
deriving DecidableEq

/-- The web as seen by the crawler. -/
def Web : Type := String → FetchResult

/-- State of a `CrawlerRecursive` (scrapper.py:97-154).  `cache` is the
content of the cache file (`none` = absent); `fetched` logs every
`_get_page` call in order; `crashed` records an uncaught exception
(calling `find_all` on a None page), after which nothing more runs. -/
structure RecState where
  urls : List String
  crawled : List String
  cache : Option String
  cached : Bool
  fetched : List String
  crashed : Bool
deriving DecidableEq

/-- Embeds `CrawlerRecursive.update_cache` (scrapper.py:121-123): rewrite
the cache file with the newline-join of the CURRENT url list.  The
Python method receives `href` but ignores it. -/
def update_cache (s : RecState) : RecState :=
  { s with cache := some (String.intercalate "\n" s.urls) }

/-- Embeds `CrawlerRecursive._add_url` (scrapper.py:106-110): if caching
is on, rewrite the cache file (before the append), then append `href`
to the url list. -/
def add_url (s : RecState) (href : String) : RecState :=
  let s1 := if s.cached then update_cache s else s
  { s1 with urls := s1.urls ++ [href] }

/-- Python `str.split(sep)` for a one-character separator, over the
character list: splitting an empty string gives one empty field, and a
trailing separator yields a trailing empty field. -/
def splitChar (sep : Char) : List Char → List (List Char)
  | [] => [[]]
  | c :: t =>
    match splitChar sep t with
    | [] => if c = sep then [[], []] else [[c]]
    | w :: ws => if c = sep then [] :: w :: ws else (c :: w) :: ws

/-- Python `s.split(sep)` for a one-character separator. -/
def pySplit (s : String) (sep : Char) : List String :=
  (splitChar sep s.data).map fun w => String.mk w

/-- Embeds `CrawlerRecursive.get_cache` (scrapper.py:112-119): if the
cache file is absent or has size zero, keep the fresh state; otherwise
read it, split on newlines into the url list, and set the visited set
to the set of those lines. -/
def get_cache (s : RecState) : RecState :=
  match s.cache with
  | none => s
  | some c =>
    if c.isEmpty then s
    else { s with urls := pySplit c '\n', crawled := pySplit c '\n' }

/-- Embeds `CrawlerRecursive.__init__` with `cached=True`
(scrapper.py:98-104): empty url list and visited set, then restore from
the cache file. -/
def newCrawler (cache : Option String) : RecState :=
  get_cache { urls := [], crawled := [], cache := cache, cached := true,
              fetched := [], crashed := false }

/-- Claim C2 (counterexample to the spec's cache round-trip): discovering
one URL through `_add_url` and then constructing a new caching crawler
restores an EMPTY url list, not the one discovered URL — `_add_url`
rewrites the cache before appending, so the cache always lacks the most
recent discovery.  A second discovery leaves only the first URL in the
cache. -/
theorem claim2_cache_roundtrip_failure :
    (newCrawler (add_url (newCrawler none) "http://site/a").cache).urls = []
    ∧ (add_url (newCrawler none) "http://site/a").urls = ["http://site/a"]
    ∧ (add_url (add_url (newCrawler none) "http://site/a")
        "http://site/b").cache = some "http://site/a"
    ∧ (newCrawler (add_url (add_url (newCrawler none) "http://site/a")
        "http://site/b").cache).urls = ["http://site/a"] := by
  refine ⟨?_, rfl, rfl, ?_⟩ <;> decide

/-- Claim C7 (counterexample to the crash-safety invariant): immediately
after a completed discovery, the cache file does NOT contain the URL
just discovered — after the first discovery the cache file content is
the empty string, and after the second it holds only the first URL. -/
theorem claim7_cache_misses_latest :
    (add_url (newCrawler none) "http://site/a").cache = some ""
    ∧ (add_url (add_url (newCrawler none) "http://site/a")
        "http://site/b").cache = some "http://site/a"
    ∧ (add_url (add_url (newCrawler none) "http://site/a")
        "http://site/b").urls = ["http://site/a", "http://site/b"] := by
  refine ⟨rfl, rfl, rfl⟩

/-- Embeds the loop body of `_extract_url` as inherited by
`CrawlerRecursive` (scrapper.py:62-73): identical control flow to
`extract_url`, but appending goes through the overriding `_add_url`,
which also rewrites the cache. -/
def rec_extract_loop (maxA : Nat) : List String → RecState → RecState
  | [], s => s
  | h :: t, s =>
    if strContains h "issue" then rec_extract_loop maxA t s
    else if s.urls.length == maxA then s
    else rec_extract_loop maxA t (add_url s h)

/-- Embeds `_extract_url` applied to an optional page: a None page (from
a non-ok response) is a no-op thanks to the `if not article_bs` guard. -/
def rec_extract_url (maxA : Nat) (page : Option Page) (s : RecState) : RecState :=
  match page with
  | none => s
  | some p => rec_extract_loop maxA p.fileLinks s

/-- The state update at the head of a page visit (scrapper.py:133-136):
mark the seed visited, then call `_get_page` (logged in `fetched`). -/
def markSeed (s : RecState) (seed : String) : RecState :=
  { s with crawled := s.crawled ++ [seed], fetched := s.fetched ++ [seed] }

/-- Embeds the link loop of `CrawlerRecursive.recurse`
(scrapper.py:144-154): iterate `find_all("a")` in page order; skip
anchors without an href; on an archive seed recurse into hrefs
containing "showToc"; then (same iteration) recurse into hrefs
containing "archive".  `recFun` is the recursive call. -/
def recurseLinks (seed : String) (recFun : String → RecState → RecState) :
    List (Option String) → RecState → RecState
  | [], s => s
  | none :: t, s => recurseLinks seed recFun t s
  | some h :: t, s =>
    recurseLinks seed recFun t
      (if strContains h "archive"
       then recFun h (if strContains seed "archive" && strContains h "showToc"
                      then recFun h s else s)
       else (if strContains seed "archive" && strContains h "showToc"
             then recFun h s else s))

/-- Embeds `CrawlerRecursive.recurse` (scrapper.py:128-154).  `fuel`
bounds the recursion depth and stands for the Python call stack; the
safety theorems below hold for every fuel value, hence for every finite
prefix of a real run.  Control flow: stop at the article cap; stop on an
already-visited seed; mark visited, then fetch; on ConnectionError
abandon the branch; on a showToc seed extract article links and stop (a
None page is tolerated there); otherwise the code calls
`page.find_all`, an uncaught AttributeError (`crashed`) when the page
is None, and recurses over the links. -/
def recurse (web : Web) (maxA : Nat) : Nat → String → RecState → RecState
  | 0, _, s => s
  | fuel + 1, seed, s =>
    if s.crashed then s
    else if maxA ≤ s.urls.length then s
    else if seed ∈ s.crawled then s
    else
      match web seed with
      | .connError => markSeed s seed
      | .notOk =>
        if strContains seed "showToc"
        then rec_extract_url maxA none (markSeed s seed)
        else { markSeed s seed with crashed := true }
      | .ok p =>
        if strContains seed "showToc"
        then rec_extract_url maxA (some p) (markSeed s seed)
        else recurseLinks seed (recurse web maxA fuel) p.allLinks
               (markSeed s seed)

/-- The fetch-log invariant: no URL fetched twice, and every fetched URL
is already in the visited set. -/
def fetchInv (s : RecState) : Prop :=
  s.fetched.Nodup ∧ ∀ u ∈ s.fetched, u ∈ s.crawled

instance (s : RecState) : Decidable (fetchInv s) := by
  unfold fetchInv; infer_instance

theorem add_url_crawled_fetched (s : RecState) (h : String) :
    (add_url s h).crawled = s.crawled ∧ (add_url s h).fetched = s.fetched := by
  by_cases hc : s.cached <;> simp [add_url, update_cache, hc]

theorem rec_extract_loop_crawled_fetched (maxA : Nat) :
    ∀ (l : List String) (s : RecState),
      (rec_extract_loop maxA l s).crawled = s.crawled
      ∧ (rec_extract_loop maxA l s).fetched = s.fetched := by
  intro l
  induction l with
  | nil => intro s; simp [rec_extract_loop]
  | cons h t ih =>
    intro s
    by_cases hiss : strContains h "issue" = true
    · rw [rec_extract_loop, if_pos hiss]
      exact ih s
    · by_cases hlen : (s.urls.length == maxA) = true
      · rw [rec_extract_loop, if_neg hiss, if_pos hlen]
        exact ⟨rfl, rfl⟩
      · rw [rec_extract_loop, if_neg hiss, if_neg hlen]
        have h1 := ih (add_url s h)
        have h2 := add_url_crawled_fetched s h
        exact ⟨h1.1.trans h2.1, h1.2.trans h2.2⟩

theorem rec_extract_url_crawled_fetched (maxA : Nat) (p : Option Page)
    (s : RecState) :
    (rec_extract_url maxA p s).crawled = s.crawled
    ∧ (rec_extract_url maxA p s).fetched = s.fetched := by
  cases p with
  | none => exact ⟨rfl, rfl⟩
  | some q => exact rec_extract_loop_crawled_fetched maxA q.fileLinks s

theorem markSeed_crawled_mono (s : RecState) (seed : String) :
    ∀ u ∈ s.crawled, u ∈ (markSeed s seed).crawled := by
  intro u hu
  exact List.mem_append.mpr (Or.inl hu)

theorem markSeed_inv (s : RecState) (seed : String) (hs : fetchInv s)
    (hvis : seed ∉ s.crawled) : fetchInv (markSeed s seed) := by
  constructor
  · refine List.Nodup.append hs.1 (List.nodup_singleton seed) ?_
    intro u hu hu2
    have heq : u = seed := List.mem_singleton.mp hu2
    exact hvis (heq ▸ hs.2 u hu)
  · intro u hu
    rcases List.mem_append.mp hu with h1 | h2
    · exact List.mem_append.mpr (Or.inl (hs.2 u h1))
    · exact List.mem_append.mpr (Or.inr h2)

theorem recurseLinks_inv (seed : String)
    (recFun : String → RecState → RecState)
    (hrec : ∀ h s, fetchInv s →
      (∀ u ∈ s.crawled, u ∈ (recFun h s).crawled) ∧ fetchInv (recFun h s)) :
    ∀ (links : List (Option String)) (s : RecState), fetchInv s →
      (∀ u ∈ s.crawled, u ∈ (recurseLinks seed recFun links s).crawled)
      ∧ fetchInv (recurseLinks seed recFun links s) := by
  intro links
  induction links with
  | nil => intro s hs; exact ⟨fun u hu => hu, hs⟩
  | cons hd t ih =>
    intro s hs
    cases hd with
    | none => exact ih s hs
    | some h =>
      rw [recurseLinks]
      have step1 : (∀ u ∈ s.crawled,
          u ∈ ((if strContains seed "archive" && strContains h "showToc"
                then recFun h s else s)).crawled)
          ∧ fetchInv ((if strContains seed "archive" && strContains h "showToc"
                then recFun h s else s)) := by
        by_cases hc1 : (strContains seed "archive" && strContains h "showToc")
            = true
        · rw [if_pos hc1]; exact hrec h s hs
        · rw [if_neg hc1]; exact ⟨fun u hu => hu, hs⟩
      set sMid := (if strContains seed "archive" && strContains h "showToc"
                then recFun h s else s) with hdefMid
      have step2 : (∀ u ∈ sMid.crawled,
          u ∈ ((if strContains h "archive" then recFun h sMid
                else sMid)).crawled)
          ∧ fetchInv ((if strContains h "archive" then recFun h sMid
                else sMid)) := by
        by_cases hc2 : strContains h "archive" = true
        · rw [if_pos hc2]; exact hrec h sMid step1.2
        · rw [if_neg hc2]; exact ⟨fun u hu => hu, step1.2⟩
      set sNext := (if strContains h "archive" then recFun h sMid else sMid)
        with hdefNext
      have step3 := ih sNext step2.2
      exact ⟨fun u hu => step3.1 u (step2.1 u (step1.1 u hu)), step3.2⟩

theorem recurse_inv (web : Web) (maxA : Nat) :
    ∀ (fuel : Nat) (seed : String) (s : RecState), fetchInv s →
      (∀ u ∈ s.crawled, u ∈ (recurse web maxA fuel seed s).crawled)
      ∧ fetchInv (recurse web maxA fuel seed s) := by
  intro fuel
  induction fuel with
  | zero => intro seed s hs; exact ⟨fun u hu => hu, hs⟩
  | succ fuel ih =>
    intro seed s hs
    rw [recurse]
    by_cases hcr : s.crashed = true
    · rw [if_pos hcr]; exact ⟨fun u hu => hu, hs⟩
    rw [if_neg hcr]
    by_cases hcap : maxA ≤ s.urls.length
    · rw [if_pos hcap]; exact ⟨fun u hu => hu, hs⟩
    rw [if_neg hcap]
    by_cases hvis : seed ∈ s.crawled
    · rw [if_pos hvis]; exact ⟨fun u hu => hu, hs⟩
    rw [if_neg hvis]
    have hs1 : fetchInv (markSeed s seed) := markSeed_inv s seed hs hvis
    have hmono1 := markSeed_crawled_mono s seed
    cases hw : web seed with
    | connError => dsimp only; exact ⟨hmono1, hs1⟩
    | notOk =>
      dsimp only
      by_cases htoc : strContains seed "showToc" = true
      · rw [if_pos htoc]
        have he := rec_extract_url_crawled_fetched maxA none (markSeed s seed)
        refine ⟨fun u hu => he.1 ▸ hmono1 u hu, he.2 ▸ hs1.1, fun u hu => ?_⟩
        rw [he.1]
        exact hs1.2 u (he.2 ▸ hu)
      · rw [if_neg htoc]
        exact ⟨hmono1, hs1⟩
    | ok p =>
      dsimp only
      by_cases htoc : strContains seed "showToc" = true
      · rw [if_pos htoc]
        have he := rec_extract_url_crawled_fetched maxA (some p)
          (markSeed s seed)
        refine ⟨fun u hu => he.1 ▸ hmono1 u hu, he.2 ▸ hs1.1, fun u hu => ?_⟩
        rw [he.1]
        exact hs1.2 u (he.2 ▸ hu)
      · rw [if_neg htoc]
        have hl := recurseLinks_inv seed (recurse web maxA fuel)
          (fun h s hsx => ih h s hsx) p.allLinks (markSeed s seed) hs1
        exact ⟨fun u hu => hl.1 u (hmono1 u hu), hl.2⟩

/-- Claim C8: from any state satisfying the fetch invariant (in
particular the constructor state, whose fetch log is empty), a recursive
crawl only ever grows the visited set, every fetched URL is in the
visited set at the moment it is fetched (visited-before-fetch, which
the preserved invariant expresses), and the fetch log stays
duplicate-free: no URL is fetched twice, even on mutually-linked
pages. -/
theorem claim8_visited_grows_no_refetch (web : Web) (maxA fuel : Nat)
    (seed : String) (s : RecState) (h : fetchInv s) :
    (∀ u ∈ s.crawled, u ∈ (recurse web maxA fuel seed s).crawled)
    ∧ (recurse web maxA fuel seed s).fetched.Nodup
    ∧ ∀ u ∈ (recurse web maxA fuel seed s).fetched,
        u ∈ (recurse web maxA fuel seed s).crawled := by
  have hmain := recurse_inv web maxA fuel seed s h
  exact ⟨hmain.1, hmain.2.1, hmain.2.2⟩

/-- Two archive pages linking to each other: a concrete mutual cycle. -/
def webMutual : Web := fun u =>
  if u = "s/archive1" then FetchResult.ok ⟨[], [some "s/archive2"]⟩
  else if u = "s/archive2" then FetchResult.ok ⟨[], [some "s/archive1"]⟩
  else FetchResult.connError

/-- Claim C8 witness: on the mutually-linked two-page web, starting from
a fresh caching crawler, the invariant hypothesis holds and the run
fetches each page exactly once. -/
theorem claim8_witness :
    fetchInv (newCrawler none)
    ∧ (recurse webMutual 5 10 "s/archive1" (newCrawler none)).fetched.Nodup
    ∧ (recurse webMutual 5 10 "s/archive1" (newCrawler none)).fetched
        = ["s/archive1", "s/archive2"] :=
  ⟨by decide,
   (claim8_visited_grows_no_refetch webMutual 5 10 "s/archive1"
      (newCrawler none) (by decide)).2.1,
   by decide⟩

theorem recurseLinks_append (seed : String)
    (recFun : String → RecState → RecState) (L1 : List (Option String)) :
    ∀ (L2 : List (Option String)) (s : RecState),
      recurseLinks seed recFun (L1 ++ L2) s
        = recurseLinks seed recFun L2 (recurseLinks seed recFun L1 s) := by
  induction L1 with
  | nil => intro L2 s; rfl
  | cons hd t ih =>
    intro L2 s
    cases hd with
    | none => rw [List.cons_append, recurseLinks, recurseLinks]; exact ih L2 s
    | some h => rw [List.cons_append, recurseLinks, recurseLinks]; exact ih L2 _

theorem recurseLinks_fetched_append (seed : String)
    (recFun : String → RecState → RecState)
    (hrec : ∀ h s, ∃ t, (recFun h s).fetched = s.fetched ++ t) :
    ∀ (links : List (Option String)) (s : RecState),
      ∃ t, (recurseLinks seed recFun links s).fetched = s.fetched ++ t := by
  intro links
  induction links with
  | nil => intro s; exact ⟨[], by simp [recurseLinks]⟩
  | cons hd t ih =>
    intro s
    cases hd with
    | none => exact ih s
    | some h =>
      rw [recurseLinks]
      have step1 : ∃ t1,
          ((if strContains seed "archive" && strContains h "showToc"
            then recFun h s else s)).fetched = s.fetched ++ t1 := by
        by_cases hc1 : (strContains seed "archive" && strContains h "showToc")
            = true
        · rw [if_pos hc1]; exact hrec h s
        · rw [if_neg hc1]; exact ⟨[], by simp⟩
      obtain ⟨t1, ht1⟩ := step1
      set sMid := (if strContains seed "archive" && strContains h "showToc"
            then recFun h s else s) with hdefMid
      have step2 : ∃ t2,
          ((if strContains h "archive" then recFun h sMid else sMid)).fetched
            = sMid.fetched ++ t2 := by
        by_cases hc2 : strContains h "archive" = true
        · rw [if_pos hc2]; exact hrec h sMid
        · rw [if_neg hc2]; exact ⟨[], by simp⟩
      obtain ⟨t2, ht2⟩ := step2
      obtain ⟨t3, ht3⟩ :=
        ih (if strContains h "archive" then recFun h sMid else sMid)
      exact ⟨t1 ++ t2 ++ t3, by rw [ht3, ht2, ht1]; simp⟩

theorem recurse_fetched_append (web : Web) (maxA : Nat) :
    ∀ (fuel : Nat) (seed : String) (s : RecState),
      ∃ t, (recurse web maxA fuel seed s).fetched = s.fetched ++ t := by
  intro fuel
  induction fuel with
  | zero => intro seed s; exact ⟨[], by simp [recurse]⟩
  | succ fuel ih =>
    intro seed s
    rw [recurse]
    by_cases hcr : s.crashed = true
    · rw [if_pos hcr]; exact ⟨[], by simp⟩
    rw [if_neg hcr]
    by_cases hcap : maxA ≤ s.urls.length
    · rw [if_pos hcap]; exact ⟨[], by simp⟩
    rw [if_neg hcap]
    by_cases hvis : seed ∈ s.crawled
    · rw [if_pos hvis]; exact ⟨[], by simp⟩
    rw [if_neg hvis]
    cases hw : web seed with
    | connError => exact ⟨[seed], by simp [markSeed]⟩
    | notOk =>
      dsimp only
      by_cases htoc : strContains seed "showToc" = true
      · rw [if_pos htoc]
        have he := rec_extract_url_crawled_fetched maxA none (markSeed s seed)
        exact ⟨[seed], by rw [he.2]; simp [markSeed]⟩
      · rw [if_neg htoc]
        exact ⟨[seed], by simp [markSeed]⟩
    | ok p =>
      dsimp only
      by_cases htoc : strContains seed "showToc" = true
      · rw [if_pos htoc]
        have he := rec_extract_url_crawled_fetched maxA (some p)
          (markSeed s seed)
        exact ⟨[seed], by rw [he.2]; simp [markSeed]⟩
      · rw [if_neg htoc]
        obtain ⟨t, ht⟩ := recurseLinks_fetched_append seed
          (recurse web maxA fuel) (fun h s2 => ih h s2) p.allLinks
          (markSeed s seed)
        exact ⟨seed :: t, by rw [ht]; simp [markSeed]⟩

theorem recurse_step_fetched (web : Web) (maxA fuel : Nat) (seed : String)
    (s : RecState) (hcr : s.crashed = false) (hcap : s.urls.length < maxA)
    (hvis : seed ∉ s.crawled) :
    ∃ t, (recurse web maxA (fuel + 1) seed s).fetched
      = s.fetched ++ seed :: t := by
  rw [recurse, if_neg (by rw [hcr]; exact Bool.false_ne_true),
    if_neg (by omega), if_neg hvis]
  cases hw : web seed with
  | connError => exact ⟨[], by simp [markSeed]⟩
  | notOk =>
    dsimp only
    by_cases htoc : strContains seed "showToc" = true
    · rw [if_pos htoc]
      have he := rec_extract_url_crawled_fetched maxA none (markSeed s seed)
      exact ⟨[], by rw [he.2]; simp [markSeed]⟩
    · rw [if_neg htoc]
      exact ⟨[], by simp [markSeed]⟩
  | ok p =>
    dsimp only
    by_cases htoc : strContains seed "showToc" = true
    · rw [if_pos htoc]
      have he := rec_extract_url_crawled_fetched maxA (some p)
        (markSeed s seed)
      exact ⟨[], by rw [he.2]; simp [markSeed]⟩
    · rw [if_neg htoc]
      obtain ⟨t, ht⟩ := recurseLinks_fetched_append seed
        (recurse web maxA fuel)
        (fun h s2 => recurse_fetched_append web maxA fuel h s2) p.allLinks
        (markSeed s seed)
      exact ⟨t, by rw [ht]; simp [markSeed]⟩

/-- An archive page that lists the next-archive-page link BEFORE its one
issue link; the issue page carries one article file link. -/
def webPageOrder : Web := fun u =>
  if u = "s/archive" then FetchResult.ok ⟨[], [some "s/archive2", some "s/showToc1"]⟩
  else if u = "s/archive2" then FetchResult.ok ⟨[], []⟩
  else if u = "s/showToc1" then FetchResult.ok ⟨["art1"], []⟩
  else FetchResult.connError

/-- Claim C9 counterexample: on an archive page whose next-archive-page
link precedes its issue link, the crawler fetches the next archive page
BEFORE the issue page — the issue link is not recursed into first, so
the claimed page-order independence is false. -/
theorem claim9_counterexample :
    strContains "s/showToc1" "showToc" = true
    ∧ strContains "s/archive2" "archive" = true
    ∧ strContains "s/archive" "archive" = true
    ∧ (recurse webPageOrder 10 5 "s/archive" (newCrawler none)).fetched
        = ["s/archive", "s/archive2", "s/showToc1"] := by
  refine ⟨by decide, by decide, by decide, by decide⟩

/-- Claim C9 (amended): links on an archive page are recursed into in
page order, not with global issue-priority.  If an issue link `h`
appears right after a first segment `L1` of the page's links, and after
processing `L1` the run has not crashed, the cap is unmet and `h` is
unvisited, then `h` is fetched while processing its own position, and
every fetch caused by the remaining links `L2` happens strictly later
(the fetch log is only extended afterwards). -/
theorem claim9_page_order (web : Web) (maxA fuel : Nat) (seed h : String)
    (L1 L2 : List (Option String)) (s : RecState)
    (hseed : strContains seed "archive" = true)
    (hh : strContains h "showToc" = true)
    (hcrash : (recurseLinks seed (recurse web maxA (fuel + 1)) L1 s).crashed
      = false)
    (hcap : (recurseLinks seed (recurse web maxA (fuel + 1)) L1 s).urls.length
      < maxA)
    (hvis : h ∉ (recurseLinks seed (recurse web maxA (fuel + 1)) L1 s).crawled) :
    h ∈ (recurseLinks seed (recurse web maxA (fuel + 1)) (L1 ++ [some h])
      s).fetched
    ∧ ∃ t, (recurseLinks seed (recurse web maxA (fuel + 1))
        ((L1 ++ [some h]) ++ L2) s).fetched
      = (recurseLinks seed (recurse web maxA (fuel + 1)) (L1 ++ [some h])
          s).fetched ++ t := by
  set f := recurse web maxA (fuel + 1) with hdeff
  set sM := recurseLinks seed f L1 s with hdefM
  have hcond : (strContains seed "archive" && strContains h "showToc") = true := by
    rw [hseed, hh]; rfl
  have hone : recurseLinks seed f (L1 ++ [some h]) s
      = (if strContains h "archive" then f h (f h sM) else f h sM) := by
    rw [recurseLinks_append seed f L1 [some h] s, recurseLinks, if_pos hcond]
    by_cases hc2 : strContains h "archive" = true
    · rw [if_pos hc2]; rfl
    · rw [if_neg hc2]; rfl
  obtain ⟨t0, ht0⟩ := recurse_step_fetched web maxA fuel h sM hcrash hcap hvis
  have hmem : h ∈ (f h sM).fetched := by
    rw [hdeff, ht0]
    exact List.mem_append.mpr (Or.inr (List.mem_cons_self h t0))
  constructor
  · rw [hone]
    by_cases hc2 : strContains h "archive" = true
    · rw [if_pos hc2]
      obtain ⟨t1, ht1⟩ := recurse_fetched_append web maxA (fuel + 1) h (f h sM)
      rw [hdeff] at ht1 ⊢
      rw [ht1]
      exact List.mem_append.mpr (Or.inl hmem)
    · rw [if_neg hc2]; exact hmem
  · rw [recurseLinks_append seed f (L1 ++ [some h]) L2 s]
    exact recurseLinks_fetched_append seed f
      (fun h2 s2 => recurse_fetched_append web maxA (fuel + 1) h2 s2) L2
      (recurseLinks seed f (L1 ++ [some h]) s)

/-- Claim C9 (amended) witness: on the page-order web, with the issue
link in first position and the next-archive link after it, the issue
page is fetched at its own position and the archive page only
afterwards. -/
theorem claim9_page_order_witness :
    strContains "s/archive" "archive" = true
    ∧ strContains "s/showToc1" "showToc" = true
    ∧ "s/showToc1" ∈ (recurseLinks "s/archive"
        (recurse webPageOrder 10 4) ([] ++ [some "s/showToc1"])
        (newCrawler none)).fetched :=
  ⟨by decide, by decide,
   (claim9_page_order webPageOrder 10 3 "s/archive" "s/showToc1" [] []
      (newCrawler none) (by decide) (by decide) (by decide) (by decide)
      (by decide)).1⟩

/-- One candidate analysis from the primary (Mystem) analyzer: the lemma
(`lex`) and the grammar tag (`gr`). -/
structure MystemCandidate where
  lex : String
  gr : String
deriving DecidableEq

/-- One unit of `mystem.analyze` output: the surface text, and the
`analysis` entry — `none` when the key is absent, `some []` when the
analysis list is empty. -/
structure MystemUnit where
  text : String
  analysis : Option (List MystemCandidate)
deriving DecidableEq

/-- Embeds `MorphologicalToken` (pipeline.py:29-57). -/
structure MorphologicalToken where
  original_word : String
  normalized_form : String
  tags_mystem : String
  tags_pymorphy : String
deriving DecidableEq

/-- Python `str.lower()` (pipeline.py:44), as a per-character map. -/
def strLower (s : String) : String :=
  String.mk (s.data.map Char.toLower)

/-- Embeds `MorphologicalToken.get_cleaned` (pipeline.py:40-44). -/
def MorphologicalToken.get_cleaned (t : MorphologicalToken) : String :=
  strLower t.original_word

/-- Embeds `MorphologicalToken.get_single_tagged` (pipeline.py:46-50). -/
def MorphologicalToken.get_single_tagged (t : MorphologicalToken) : String :=
  t.normalized_form ++ "<" ++ t.tags_mystem ++ ">"

/-- Embeds `MorphologicalToken.get_multiple_tagged` (pipeline.py:52-56). -/
def MorphologicalToken.get_multiple_tagged (t : MorphologicalToken) : String :=
  t.normalized_form ++ "<" ++ t.tags_mystem ++ ">(" ++ t.tags_pymorphy ++ ")"

/-- Python `text.replace("\n", " ")` (pipeline.py:117): a per-character
replacement, since the pattern is a single character. -/
def replace_newlines (s : String) : String :=
  String.mk (s.data.map fun c => if c = '\n' then ' ' else c)

/-- The token-building loop of `TextProcessingPipeline._process`
(pipeline.py:116-129): skip units with an absent or empty analysis;
otherwise take lemma and primary tag from the first candidate, and the
secondary tag from the first parse of the secondary (pymorphy)
analyzer, modelled as `pyParse` (pymorphy always returns a non-empty
parse list; its first element is taken). -/
def processLoop (pyParse : String → List String) :
    List MystemUnit → List MorphologicalToken → List MorphologicalToken
  | [], tokens => tokens
  | u :: rest, tokens =>
    match u.analysis with
    | none => processLoop pyParse rest tokens
    | some [] => processLoop pyParse rest tokens
    | some (c :: _) =>
      processLoop pyParse rest
        (tokens ++ [⟨u.text, c.lex, c.gr, (pyParse u.text).headI⟩])

/-- Embeds `TextProcessingPipeline._process` (pipeline.py:109-129): the
primary analyzer (`mystem.analyze`) is a parameter from text to a unit
stream; line breaks are replaced by spaces before it runs. -/
def pipeline_process (mystem : String → List MystemUnit)
    (pyParse : String → List String) (raw_text : String) :
    List MorphologicalToken :=
  processLoop pyParse (mystem (replace_newlines raw_text)) []

/-- Spec-side description of `_process` (spec section 4.5): drop every
unit the analyzer reports no (or an empty) analysis for, and build the
retained tokens from the first candidates. -/
def tokenOfUnit (pyParse : String → List String) (u : MystemUnit) :
    Option MorphologicalToken :=
  match u.analysis with
  | some (c :: _) => some ⟨u.text, c.lex, c.gr, (pyParse u.text).headI⟩
  | _ => none

/-- Spec-side `_process`: a filterMap over the analyzer's output on the
newline-replaced text. -/
def processSpec (mystem : String → List MystemUnit)
    (pyParse : String → List String) (raw_text : String) :
    List MorphologicalToken :=
  (mystem (replace_newlines raw_text)).filterMap (tokenOfUnit pyParse)

/-- One article as the annotation pipeline sees it: the raw text plus
the three derived artifact files (`none` = not yet written). -/
structure ArticleState where
  raw : String
  cleaned : Option String
  single_tagged : Option String
  multiple_tagged : Option String
deriving DecidableEq

/-- Embeds the per-article body of `TextProcessingPipeline.run`
(pipeline.py:92-105): process the raw text and overwrite the three
artifacts with space-joined per-token renderings. -/
def run_article (mystem : String → List MystemUnit)
    (pyParse : String → List String) (a : ArticleState) : ArticleState :=
  { a with
    cleaned := some (String.intercalate " "
      ((pipeline_process mystem pyParse a.raw).map
        MorphologicalToken.get_cleaned)),
    single_tagged := some (String.intercalate " "
      ((pipeline_process mystem pyParse a.raw).map
        MorphologicalToken.get_single_tagged)),
    multiple_tagged := some (String.intercalate " "
      ((pipeline_process mystem pyParse a.raw).map
        MorphologicalToken.get_multiple_tagged)) }

theorem processLoop_append (pyParse : String → List String) :
    ∀ (units : List MystemUnit) (acc : List MorphologicalToken),
      processLoop pyParse units acc
        = acc ++ units.filterMap (tokenOfUnit pyParse) := by
  intro units
  induction units with
  | nil => intro acc; simp [processLoop]
  | cons u rest ih =>
    intro acc
    match hu : u.analysis with
    | none =>
      rw [processLoop]
      rw [hu, ih acc, List.filterMap_cons]
      simp [tokenOfUnit, hu]
    | some [] =>
      rw [processLoop]
      rw [hu, ih acc, List.filterMap_cons]
      simp [tokenOfUnit, hu]
    | some (c :: cs) =>
      rw [processLoop]
      rw [hu, ih _, List.filterMap_cons]
      simp [tokenOfUnit, hu, ih]

/-- Claim C5: `_process` equals the spec-side filterMap — line breaks
are replaced by spaces before tokenizing, units with no (or empty)
analysis are dropped, retained tokens take lemma and primary tag from
the first candidate and the secondary tag from the secondary analyzer's
first parse — and each of the three artifacts written by `run` is the
space-join over this same token list of, respectively, the lowercased
surface, lemma<primary>, and lemma<primary>(secondary); hence a dropped
unit contributes to none of the three artifacts. -/
theorem claim5_process_artifacts (mystem : String → List MystemUnit)
    (pyParse : String → List String) (a : ArticleState) :
    pipeline_process mystem pyParse a.raw = processSpec mystem pyParse a.raw
    ∧ (run_article mystem pyParse a).cleaned
        = some (String.intercalate " "
            ((processSpec mystem pyParse a.raw).map
              MorphologicalToken.get_cleaned))
    ∧ (run_article mystem pyParse a).single_tagged
        = some (String.intercalate " "
            ((processSpec mystem pyParse a.raw).map
              MorphologicalToken.get_single_tagged))
    ∧ (run_article mystem pyParse a).multiple_tagged
        = some (String.intercalate " "
            ((processSpec mystem pyParse a.raw).map
              MorphologicalToken.get_multiple_tagged)) := by
  have hmain : pipeline_process mystem pyParse a.raw
      = processSpec mystem pyParse a.raw := by
    rw [pipeline_process, processSpec, processLoop_append]
    simp
  exact ⟨hmain, by rw [run_article, hmain], by rw [run_article, hmain],
    by rw [run_article, hmain]⟩

/-- Claim C6: reprocessing is idempotent and regenerates from the raw
text alone — running the per-article pipeline twice equals running it
once, and two articles with identical raw text (whatever artifacts were
previously written) receive byte-identical artifacts. -/
theorem claim6_idempotent_regeneration (mystem : String → List MystemUnit)
    (pyParse : String → List String) (a : ArticleState) :
    run_article mystem pyParse (run_article mystem pyParse a)
      = run_article mystem pyParse a
    ∧ ∀ b : ArticleState, a.raw = b.raw →
        (run_article mystem pyParse a).cleaned
          = (run_article mystem pyParse b).cleaned
        ∧ (run_article mystem pyParse a).single_tagged
          = (run_article mystem pyParse b).single_tagged
        ∧ (run_article mystem pyParse a).multiple_tagged
          = (run_article mystem pyParse b).multiple_tagged := by
  constructor
  · rw [run_article, run_article]
  · intro b hraw
    refine ⟨?_, ?_, ?_⟩ <;> rw [run_article, run_article] <;> rw [hraw]

/-- Claim C6 witness: a sample article processed beside a copy carrying
stale artifacts: the pipeline overwrites both identically. -/
theorem claim6_witness :
    (⟨"Word other", none, none, none⟩ : ArticleState).raw
      = (⟨"Word other", some "stale", some "stale", some "stale"⟩
          : ArticleState).raw
    ∧ (run_article (fun t => [⟨t, some [⟨"word", "S"⟩]⟩])
        (fun _ => ["NOUN"]) ⟨"Word other", none, none, none⟩).cleaned
      = (run_article (fun t => [⟨t, some [⟨"word", "S"⟩]⟩])
        (fun _ => ["NOUN"])
        ⟨"Word other", some "stale", some "stale", some "stale"⟩).cleaned :=
  ⟨rfl,
   ((claim6_idempotent_regeneration (fun t => [⟨t, some [⟨"word", "S"⟩]⟩])
      (fun _ => ["NOUN"]) ⟨"Word other", none, none, none⟩).2
      ⟨"Word other", some "stale", some "stale", some "stale"⟩ rfl).1⟩

/-- Errors raised by pipeline.py (pipeline.py:14-26 plus the builtin
FileNotFoundError / NotADirectoryError). -/
inductive PipeErr
  | fileNotFound
  | notADirectory
  | emptyDirectory
  | inconsistent (msg : String)
deriving DecidableEq

/-- Embeds `_id_from_path` (pipeline.py:158-162): strip every non-digit
character from the file name; if nothing is left the name contains no
id (InconsistentDatasetError); otherwise read the digits as a decimal
number. -/
def id_from_path (name : String) : Except PipeErr Nat :=
  let digits := name.data.filter Char.isDigit
  if digits.isEmpty then
    Except.error (PipeErr.inconsistent "file name contains no id")
  else
    Except.ok (digits.foldl (fun n c => 10 * n + (c.toNat - 48)) 0)

/-- Python `str.endswith`; a glob pattern of the shape `*_raw.txt`
matches a name exactly when the name ends with the literal part. -/
def strEndsWith (s t : String) : Bool :=
  t.data.isSuffixOf s.data

/-- `_id_from_path` mapped over a list of names, stopping at the first
failure (as Python's `sorted(map(...))` forces the whole map and
propagates the first exception). -/
def idsOf : List String → Except PipeErr (List Nat)
  | [] => Except.ok []
  | name :: rest =>
    match id_from_path name with
    | Except.error e => Except.error e
    | Except.ok i =>
      match idsOf rest with
      | Except.error e => Except.error e
      | Except.ok more => Except.ok (i :: more)

/-- An `Article(None, index)` placeholder as `_scan_dataset` builds it
(pipeline.py:75): no url, just the id. -/
structure PArticle where
  url : Option String
  article_id : Nat
deriving DecidableEq

/-- The dict-filling loop of `CorpusManager._scan_dataset`
(pipeline.py:69-75): for each matching file name, extract the id and
store `Article(None, id)` under that id, overwriting any previous
entry for the same id. -/
def scanLoop : List String → (Nat → Option PArticle) →
    Except PipeErr (Nat → Option PArticle)
  | [], storage => Except.ok storage
  | name :: rest, storage =>
    match id_from_path name with
    | Except.error e => Except.error e
    | Except.ok index =>
      scanLoop rest
        (fun k => if k = index then some ⟨none, index⟩ else storage k)

/-- Embeds `CorpusManager._scan_dataset` (pipeline.py:69-75): iterate the
directory entries matching `*_raw.txt` and fill the storage dict. -/
def scan_dataset (files : List String) :
    Except PipeErr (Nat → Option PArticle) :=
  scanLoop (files.filter fun n => strEndsWith n "_raw.txt") (fun _ => none)

theorem scanLoop_ok :
    ∀ (names : List String) (storage0 storage : Nat → Option PArticle),
      scanLoop names storage0 = Except.ok storage →
      ∃ ids, idsOf names = Except.ok ids
        ∧ ∀ k, storage k
            = if k ∈ ids then some ⟨none, k⟩ else storage0 k := by
  intro names
  induction names with
  | nil =>
    intro storage0 storage h
    refine ⟨[], rfl, fun k => ?_⟩
    have hss : storage0 = storage := by
      simpa [scanLoop] using h
    simp [hss]
  | cons name rest ih =>
    intro storage0 storage h
    rw [scanLoop] at h
    cases hid : id_from_path name with
    | error e => rw [hid] at h; exact absurd h (by simp)
    | ok i =>
      rw [hid] at h
      obtain ⟨ids, hids, hpt⟩ := ih _ storage h
      refine ⟨i :: ids, by rw [idsOf, hid, hids], fun k => ?_⟩
      rw [hpt k]
      by_cases hmem : k ∈ ids
      · simp [hmem, List.mem_cons]
      · by_cases hki : k = i
        · subst hki
          simp [hmem]
        · simp [hmem, hki, List.mem_cons]

/-- Claim C10: whenever `CorpusManager` construction succeeds, every
stored article's `article_id` equals its key, and the key set is
exactly the set of ids extracted from the `*_raw.txt` file names (so
two file names with the same id necessarily collapse to the single
entry under that id: the storage is a map keyed by id). -/
theorem claim10_scan_storage (files : List String)
    (storage : Nat → Option PArticle)
    (h : scan_dataset files = Except.ok storage) :
    (∀ k a, storage k = some a → a.article_id = k)
    ∧ ∃ ids, idsOf (files.filter fun n => strEndsWith n "_raw.txt")
        = Except.ok ids
      ∧ ∀ k, (storage k).isSome = true ↔ k ∈ ids := by
  obtain ⟨ids, hids, hpt⟩ := scanLoop_ok _ _ _ h
  constructor
  · intro k a ha
    rw [hpt k] at ha
    by_cases hmem : k ∈ ids
    · rw [if_pos hmem] at ha
      cases ha
      rfl
    · rw [if_neg hmem] at ha
      exact absurd ha (by simp)
  · refine ⟨ids, hids, fun k => ?_⟩
    rw [hpt k]
    by_cases hmem : k ∈ ids <;> simp [hmem]

/-- Claim C10 witness: a directory with two file names carrying the same
id (`2_raw.txt`, `02_raw.txt`) and an unrelated meta file: construction
succeeds and every stored article's id equals its key. -/
theorem claim10_witness :
    ∃ storage,
      scan_dataset ["1_raw.txt", "2_raw.txt", "02_raw.txt", "9_meta.json"]
        = Except.ok storage
      ∧ ∀ k a, storage k = some a → a.article_id = k :=
  ⟨_, rfl,
   (claim10_scan_storage ["1_raw.txt", "2_raw.txt", "02_raw.txt",
      "9_meta.json"] _ rfl).1⟩

/-- The filesystem as `validate_dataset` probes it: a missing path, an
existing non-directory, or a directory listed as (name, size) pairs. -/
inductive FS
  | missing
  | nonDir
  | dir (files : List (String × Nat))
deriving DecidableEq

/-- Names in a directory matching the glob `*<tail>` (the two patterns
used are `*_meta.json` and `*_raw.txt`), in directory order. -/
def globNames (tail : String) (files : List (String × Nat)) : List String :=
  (files.filter fun f => strEndsWith f.1 tail).map fun f => f.1

/-- Python's `sorted` on integers, modelled by insertion sort (every
correct sort of naturals produces the same list). -/
def pySorted (l : List Nat) : List Nat :=
  List.insertionSort (fun a b => a ≤ b) l

/-- One `all(map(lambda a: a[0] == a[1], zip(ids, range(1, n + 1))))`
check from pipeline.py:150-153 (note: `zip` truncates to the shorter
list). -/
def rangeCheck (l : List Nat) (n : Nat) : Bool :=
  (l.zip (List.range' 1 n)).all fun p => p.1 == p.2

/-- Embeds `validate_dataset` (pipeline.py:132-155): not-found and
not-a-directory checks; empty-directory check; zero-size-file check;
then the two sorted-id range checks (both against `len(meta_ids)`, as
in the source) and the count-equality check. -/
def validate_dataset (fs : FS) : Except PipeErr Unit :=
  match fs with
  | FS.missing => Except.error PipeErr.fileNotFound
  | FS.nonDir => Except.error PipeErr.notADirectory
  | FS.dir files =>
    if files.isEmpty then Except.error PipeErr.emptyDirectory
    else if files.any (fun f => f.2 == 0) then
      Except.error (PipeErr.inconsistent "empty file")
    else
      match idsOf (globNames "_meta.json" files) with
      | Except.error e => Except.error e
      | Except.ok metaIds =>
        match idsOf (globNames "_raw.txt" files) with
        | Except.error e => Except.error e
        | Except.ok rawIds =>
          if !rangeCheck (pySorted metaIds) (pySorted metaIds).length then
            Except.error
              (PipeErr.inconsistent "meta files should be listed 1 to N")
          else if !rangeCheck (pySorted rawIds) (pySorted metaIds).length then
            Except.error
              (PipeErr.inconsistent "raw files should be listed 1 to N")
          else if (pySorted metaIds).length ≠ (pySorted rawIds).length then
            Except.error
              (PipeErr.inconsistent "uneven number of meta and text files")
          else Except.ok ()

/-- Spec-side success condition for a directory (spec section 4.3 /
claim C3): non-empty, no zero-size file, all meta and raw ids
extractable, meta ids exactly the contiguous range 1..N, raw ids
exactly 1..M, and N = M. -/
def specOkDir (files : List (String × Nat)) : Prop :=
  files ≠ [] ∧ (∀ f ∈ files, f.2 ≠ 0)
  ∧ ∃ mids rids : List Nat,
      idsOf (globNames "_meta.json" files) = Except.ok mids
      ∧ idsOf (globNames "_raw.txt" files) = Except.ok rids
      ∧ mids.Perm (List.range' 1 mids.length)
      ∧ rids.Perm (List.range' 1 rids.length)
      ∧ mids.length = rids.length

/-- Spec-side success condition over the whole filesystem model. -/
def specOk : FS → Prop
  | FS.missing => False
  | FS.nonDir => False
  | FS.dir files => specOkDir files

theorem rangeCheck_shift (s : List Nat) :
    ∀ a : Nat, ((s.zip (List.range' a s.length)).all
        fun p => p.1 == p.2) = true
      ↔ s = List.range' a s.length := by
  induction s with
  | nil => intro a; simp
  | cons x t ih =>
    intro a
    have hr : List.range' a (x :: t).length
        = a :: List.range' (a + 1) t.length := rfl
    rw [hr]
    simp only [List.zip_cons_cons, List.all_cons, Bool.and_eq_true, beq_iff_eq]
    constructor
    · rintro ⟨hx, hrest⟩
      rw [hx, (ih (a + 1)).mp hrest]
      simp [List.length_range']
    · intro h
      injection h with h1 h2
      exact ⟨h1, (ih (a + 1)).mpr h2⟩

theorem rangeCheck_self (s : List Nat) :
    rangeCheck s s.length = true ↔ s = List.range' 1 s.length :=
  rangeCheck_shift s 1

theorem range'_sorted_le (n : Nat) :
    List.Sorted (fun a b => a ≤ b) (List.range' 1 n) :=
  (List.pairwise_lt_range' 1 n 1 (by omega)).imp fun h => Nat.le_of_lt h

theorem pySorted_eq_range_iff (l : List Nat) :
    pySorted l = List.range' 1 l.length
      ↔ l.Perm (List.range' 1 l.length) := by
  constructor
  · intro h
    have hp := List.perm_insertionSort (fun a b => a ≤ b) l
    rw [pySorted] at h
    exact (h ▸ hp).symm
  · intro h
    have hp : (pySorted l).Perm (List.range' 1 l.length) :=
      (List.perm_insertionSort (fun a b => a ≤ b) l).trans h
    exact List.eq_of_perm_of_sorted hp
      (List.sorted_insertionSort (fun a b => a ≤ b) l) (range'_sorted_le _)

theorem pySorted_length (l : List Nat) : (pySorted l).length = l.length :=
  List.length_insertionSort (fun a b => a ≤ b) l

theorem idsOf_error_inconsistent :
    ∀ (names : List String) (e : PipeErr), idsOf names = Except.error e →
      ∃ msg, e = PipeErr.inconsistent msg := by
  intro names
  induction names with
  | nil => intro e h; exact absurd h (by simp [idsOf])
  | cons name rest ih =>
    intro e h
    rw [idsOf] at h
    cases hid : id_from_path name with
    | error e2 =>
      rw [hid] at h
      rw [id_from_path] at hid
      by_cases hd : (name.data.filter Char.isDigit).isEmpty = true
      · rw [if_pos hd] at hid
        injection h with h1
        injection hid with h2
        exact ⟨"file name contains no id", by rw [← h1, ← h2]⟩
      · rw [if_neg hd] at hid
        exact absurd hid (by simp)
    | ok i =>
      rw [hid] at h
      cases hrest : idsOf rest with
      | error e2 =>
        rw [hrest] at h
        injection h with h1
        exact h1 ▸ ih e2 hrest
      | ok more => rw [hrest] at h; exact absurd h (by simp)

theorem validate_dataset_dir_iff (files : List (String × Nat)) :
    validate_dataset (FS.dir files) = Except.ok () ↔ specOkDir files := by
  rw [validate_dataset]
  by_cases hne : files.isEmpty = true
  · rw [if_pos hne]
    constructor
    · intro h; exact absurd h (by simp)
    · rintro ⟨hn, -⟩; exact absurd (List.isEmpty_iff.mp hne) hn
  rw [if_neg hne]
  by_cases hz : (files.any fun f => f.2 == 0) = true
  · rw [if_pos hz]
    constructor
    · intro h; exact absurd h (by simp)
    · rintro ⟨-, hzf, -⟩
      obtain ⟨f, hf, hf0⟩ := List.any_eq_true.mp hz
      exact absurd (beq_iff_eq.mp hf0) (hzf f hf)
  rw [if_neg hz]
  cases hm : idsOf (globNames "_meta.json" files) with
  | error e =>
    constructor
    · intro h; exact absurd h (by simp)
    · rintro ⟨-, -, mids, rids, hm2, -⟩
      rw [hm] at hm2
      exact absurd hm2 (by simp)
  | ok metaIds =>
    cases hr : idsOf (globNames "_raw.txt" files) with
    | error e =>
      constructor
      · intro h; exact absurd h (by simp)
      · rintro ⟨-, -, mids, rids, hm2, hr2, -⟩
        rw [hr] at hr2
        exact absurd hr2 (by simp)
    | ok rawIds =>
      dsimp only
      constructor
      · intro h
        by_cases hc1 : (!rangeCheck (pySorted metaIds)
            (pySorted metaIds).length) = true
        · rw [if_pos hc1] at h; exact absurd h (by simp)
        rw [if_neg hc1] at h
        by_cases hc2 : (!rangeCheck (pySorted rawIds)
            (pySorted metaIds).length) = true
        · rw [if_pos hc2] at h; exact absurd h (by simp)
        rw [if_neg hc2] at h
        by_cases hc3 : (pySorted metaIds).length ≠ (pySorted rawIds).length
        · rw [if_pos hc3] at h; exact absurd h (by simp)
        have hb1 : rangeCheck (pySorted metaIds) (pySorted metaIds).length
            = true := by simpa using hc1
        have hb2 : rangeCheck (pySorted rawIds) (pySorted metaIds).length
            = true := by simpa using hc2
        have hlen : (pySorted metaIds).length = (pySorted rawIds).length :=
          not_ne_iff.mp hc3
        have hm1 : pySorted metaIds = List.range' 1 metaIds.length := by
          have hx := (rangeCheck_self (pySorted metaIds)).mp hb1
          rwa [pySorted_length] at hx
        have hmp : metaIds.Perm (List.range' 1 metaIds.length) :=
          (pySorted_eq_range_iff metaIds).mp hm1
        have hb2x : rangeCheck (pySorted rawIds) (pySorted rawIds).length
            = true := by rwa [hlen] at hb2
        have hr1 : pySorted rawIds = List.range' 1 rawIds.length := by
          have hx := (rangeCheck_self (pySorted rawIds)).mp hb2x
          rwa [pySorted_length] at hx
        have hrp : rawIds.Perm (List.range' 1 rawIds.length) :=
          (pySorted_eq_range_iff rawIds).mp hr1
        have hlen2 : metaIds.length = rawIds.length := by
          rw [← pySorted_length metaIds, ← pySorted_length rawIds]
          exact hlen
        refine ⟨fun hnil => hne (by rw [hnil]; rfl), ?_,
          metaIds, rawIds, hm, hr, hmp, hrp, hlen2⟩
        intro f hf hsz
        exact hz (List.any_eq_true.mpr ⟨f, hf, by simp [hsz]⟩)
      · rintro ⟨-, -, mids, rids, hm2, hr2, hmp, hrp, hlen⟩
        rw [hm] at hm2
        rw [hr] at hr2
        injection hm2 with hmeq
        injection hr2 with hreq
        subst hmeq
        subst hreq
        have hm1 : pySorted metaIds = List.range' 1 metaIds.length :=
          (pySorted_eq_range_iff metaIds).mpr hmp
        have hr1 : pySorted rawIds = List.range' 1 rawIds.length :=
          (pySorted_eq_range_iff rawIds).mpr hrp
        have hb1 : rangeCheck (pySorted metaIds) (pySorted metaIds).length
            = true := by
          rw [rangeCheck_self, pySorted_length]
          exact hm1
        have hlen3 : (pySorted metaIds).length = (pySorted rawIds).length := by
          rw [pySorted_length, pySorted_length]
          exact hlen
        have hb2 : rangeCheck (pySorted rawIds) (pySorted metaIds).length
            = true := by
          rw [hlen3, rangeCheck_self, pySorted_length]
          exact hr1
        rw [if_neg (by simp [hb1]), if_neg (by simp [hb2]),
          if_neg (not_ne_iff.mpr hlen3)]

theorem validate_dataset_dir_inconsistent (files : List (String × Nat))
    (hne : files ≠ [])
    (hnok : validate_dataset (FS.dir files) ≠ Except.ok ()) :
    ∃ msg, validate_dataset (FS.dir files)
      = Except.error (PipeErr.inconsistent msg) := by
  have hne2 : ¬(files.isEmpty = true) := by simpa using hne
  rw [validate_dataset] at hnok ⊢
  rw [if_neg hne2] at hnok ⊢
  by_cases hz : (files.any fun f => f.2 == 0) = true
  · rw [if_pos hz]
    exact ⟨"empty file", rfl⟩
  rw [if_neg hz] at hnok ⊢
  cases hm : idsOf (globNames "_meta.json" files) with
  | error e =>
    obtain ⟨msg, hmsg⟩ := idsOf_error_inconsistent _ e hm
    exact ⟨msg, by rw [hmsg]⟩
  | ok metaIds =>
    cases hr : idsOf (globNames "_raw.txt" files) with
    | error e =>
      obtain ⟨msg, hmsg⟩ := idsOf_error_inconsistent _ e hr
      exact ⟨msg, by rw [hmsg]⟩
    | ok rawIds =>
      rw [hm, hr] at hnok
      dsimp only at hnok ⊢
      by_cases hc1 : (!rangeCheck (pySorted metaIds)
          (pySorted metaIds).length) = true
      · rw [if_pos hc1]
        exact ⟨"meta files should be listed 1 to N", rfl⟩
      rw [if_neg hc1] at hnok ⊢
      by_cases hc2 : (!rangeCheck (pySorted rawIds)
          (pySorted metaIds).length) = true
      · rw [if_pos hc2]
        exact ⟨"raw files should be listed 1 to N", rfl⟩
      rw [if_neg hc2] at hnok ⊢
      by_cases hc3 : (pySorted metaIds).length ≠ (pySorted rawIds).length
      · rw [if_pos hc3]
        exact ⟨"uneven number of meta and text files", rfl⟩
      rw [if_neg hc3] at hnok
      exact absurd rfl hnok

/-- Claim C3: `validate_dataset` returns normally exactly when the path
is a non-empty directory with no zero-size file whose `*_meta.json` ids
are exactly 1..N, whose `*_raw.txt` ids are exactly 1..M, and N = M;
a missing path raises not-found, a non-directory raises
not-a-directory, an empty directory raises empty-directory, and every
other failure on a non-empty directory (zero-size file, a glob-matching
name with no digits, raw ids such as {1,2,4}, unequal counts) raises a
dataset-inconsistency error. -/
theorem claim3_validate_dataset :
    (∀ fs : FS, validate_dataset fs = Except.ok () ↔ specOk fs)
    ∧ validate_dataset FS.missing = Except.error PipeErr.fileNotFound
    ∧ validate_dataset FS.nonDir = Except.error PipeErr.notADirectory
    ∧ validate_dataset (FS.dir []) = Except.error PipeErr.emptyDirectory
    ∧ ∀ files : List (String × Nat), files ≠ [] →
        validate_dataset (FS.dir files) ≠ Except.ok () →
        ∃ msg, validate_dataset (FS.dir files)
          = Except.error (PipeErr.inconsistent msg) := by
  refine ⟨fun fs => ?_, rfl, rfl, rfl, validate_dataset_dir_inconsistent⟩
  cases fs with
  | missing =>
    constructor
    · intro h; exact absurd h (by simp [validate_dataset])
    · intro h; exact absurd h (by simp [specOk])
  | nonDir =>
    constructor
    · intro h; exact absurd h (by simp [validate_dataset])
    · intro h; exact absurd h (by simp [specOk])
  | dir files => exact validate_dataset_dir_iff files

instance {e a : Type} [DecidableEq e] [DecidableEq a] :
    DecidableEq (Except e a) := fun x y => by
  cases x with
  | error x1 =>
    cases y with
    | error y1 =>
      exact if h : x1 = y1 then isTrue (by rw [h])
        else isFalse fun hc => h (by injection hc)
    | ok y1 => exact isFalse fun hc => Except.noConfusion hc
  | ok x1 =>
    cases y with
    | error y1 => exact isFalse fun hc => Except.noConfusion hc
    | ok y1 =>
      exact if h : x1 = y1 then isTrue (by rw [h])
        else isFalse fun hc => h (by injection hc)

/-- Claim C3 witness: a directory with matching ids {1} passes; a
directory with raw ids {1,2,4} against meta ids {1,2,3} fails with an
inconsistency error; a glob-matching file name containing no digit
fails with an inconsistency error. -/
theorem claim3_witness :
    validate_dataset (FS.dir [("1_raw.txt", 5), ("1_meta.json", 7)])
      = Except.ok ()
    ∧ (∃ msg, validate_dataset (FS.dir [("1_raw.txt", 5), ("2_raw.txt", 5),
        ("4_raw.txt", 5), ("1_meta.json", 5), ("2_meta.json", 5),
        ("3_meta.json", 5)]) = Except.error (PipeErr.inconsistent msg))
    ∧ (∃ msg, validate_dataset (FS.dir [("nodigits_raw.txt", 5)])
        = Except.error (PipeErr.inconsistent msg)) :=
  ⟨(claim3_validate_dataset.1 (FS.dir [("1_raw.txt", 5),
      ("1_meta.json", 7)])).mpr
      ⟨by decide, by decide, [1], [1], rfl, rfl, List.Perm.refl [1],
        List.Perm.refl [1], rfl⟩,
   claim3_validate_dataset.2.2.2.2 [("1_raw.txt", 5), ("2_raw.txt", 5),
      ("4_raw.txt", 5), ("1_meta.json", 5), ("2_meta.json", 5),
      ("3_meta.json", 5)] (by decide) (by decide),
   claim3_validate_dataset.2.2.2.2 [("nodigits_raw.txt", 5)] (by decide)
      (by decide)⟩

/-- A JSON value as `json.load` can produce it.  Python booleans are
subsumed by `jint` (`isinstance(True, int)` holds, `True == 1`);
`jother` stands for the remaining JSON values (floats, null, objects),
which are neither `int` nor `str` nor `list`. -/
inductive JVal
  | jint (n : Int)
  | jstr (s : String)
  | jlist (l : List JVal)
  | jother

/-- Errors raised by `validate_config` (scrapper.py:23-38), plus the
TypeError that `re.match` raises when handed a non-string
(scrapper.py:228-229 applies it to an arbitrary config entry). -/
inductive ScrapErr
  | incorrectURL
  | numberOutOfRange
  | incorrectNumber
  | typeError
deriving DecidableEq

/-- The two config keys `validate_config` reads; `none` = key absent. -/
structure Config where
  seed_urls : Option JVal
  total_articles : Option JVal

/-- Python `str.startswith`. -/
def strStarts (s t : String) : Bool :=
  t.data.isPrefixOf s.data

/-- `re.match(r"https?://", url)` on a string: the pattern anchors at
the start and matches exactly the prefixes http:// and https://. -/
def urlMatches (s : String) : Bool :=
  strStarts s "http://" || strStarts s "https://"

/-- Embeds `_is_valid_url` (scrapper.py:228-229): `re.match` demands a
string and raises TypeError on anything else. -/
def is_valid_url : JVal → Except ScrapErr Bool
  | JVal.jstr s => Except.ok (urlMatches s)
  | _ => Except.error ScrapErr.typeError

/-- The seed loop of `validate_config` (scrapper.py:221-223): raise the
URL error at the first entry the pattern does not match; a TypeError
from `re.match` propagates. -/
def check_seeds : List JVal → Except ScrapErr Unit
  | [] => Except.ok ()
  | u :: rest =>
    match is_valid_url u with
    | Except.error e => Except.error e
    | Except.ok b =>
      if b then check_seeds rest else Except.error ScrapErr.incorrectURL

/-- Embeds `validate_config` (scrapper.py:200-225): key-presence checks
for `seed_urls` then `total_articles_to_find_and_parse`; the count must
be an int, positive, and at most 200; the seeds must be a non-empty
list whose every entry matches the URL pattern; on success the seed
list and the count are returned unchanged. -/
def validate_config (c : Config) : Except ScrapErr (JVal × Int) :=
  match c.seed_urls with
  | none => Except.error ScrapErr.incorrectURL
  | some seeds =>
    match c.total_articles with
    | none => Except.error ScrapErr.incorrectNumber
    | some maxv =>
      match maxv with
      | JVal.jint n =>
        if n ≤ 0 then Except.error ScrapErr.incorrectNumber
        else if 200 < n then Except.error ScrapErr.numberOutOfRange
        else
          match seeds with
          | JVal.jlist l =>
            if l.isEmpty then Except.error ScrapErr.incorrectURL
            else
              match check_seeds l with
              | Except.error e => Except.error e
              | Except.ok _ => Except.ok (seeds, n)
          | _ => Except.error ScrapErr.incorrectURL
      | _ => Except.error ScrapErr.incorrectNumber

/-- Claim C4 counterexample: a config whose seed list holds the
non-string entry `3` (the count being valid) raises TypeError, not the
URL error the claim requires for an entry not matching the pattern; and
a config missing BOTH keys raises the URL error even though the claim
requires the count-type error whenever the count key is absent. -/
theorem claim4_counterexample :
    validate_config ⟨some (JVal.jlist [JVal.jint 3]), some (JVal.jint 5)⟩
      = Except.error ScrapErr.typeError
    ∧ ScrapErr.typeError ≠ ScrapErr.incorrectURL
    ∧ validate_config ⟨none, none⟩ = Except.error ScrapErr.incorrectURL
    ∧ ScrapErr.incorrectURL ≠ ScrapErr.incorrectNumber :=
  ⟨rfl, by decide, rfl, by decide⟩

theorem check_seeds_all_ok :
    ∀ ss : List String, (∀ s ∈ ss, urlMatches s = true) →
      check_seeds (ss.map JVal.jstr) = Except.ok () := by
  intro ss
  induction ss with
  | nil => intro _; rfl
  | cons s rest ih =>
    intro h
    have hs : urlMatches s = true := h s (List.mem_cons_self s rest)
    rw [List.map_cons, check_seeds]
    dsimp only [is_valid_url]
    rw [if_pos hs]
    exact ih fun x hx => h x (List.mem_cons_of_mem s hx)

theorem check_seeds_first_bad :
    ∀ ss : List String, (∃ s ∈ ss, urlMatches s = false) →
      check_seeds (ss.map JVal.jstr) = Except.error ScrapErr.incorrectURL := by
  intro ss
  induction ss with
  | nil => rintro ⟨s, hs, -⟩; exact absurd hs (by simp)
  | cons s rest ih =>
    rintro ⟨x, hx, hxf⟩
    rw [List.map_cons, check_seeds]
    dsimp only [is_valid_url]
    by_cases hs : urlMatches s = true
    · rw [if_pos hs]
      refine ih ⟨x, ?_, hxf⟩
      rcases List.mem_cons.mp hx with hsx | hmem
      · rw [hsx] at hxf; rw [hxf] at hs; exact absurd hs (by simp)
      · exact hmem
    · rw [if_neg hs]

theorem check_seeds_nonstring :
    ∀ (ss : List String) (x : JVal) (rest : List JVal),
      (∀ s ∈ ss, urlMatches s = true) → (∀ s, x ≠ JVal.jstr s) →
      check_seeds (ss.map JVal.jstr ++ x :: rest)
        = Except.error ScrapErr.typeError := by
  intro ss
  induction ss with
  | nil =>
    intro x rest _ hx
    rw [List.map_nil, List.nil_append, check_seeds]
    cases x with
    | jstr s => exact absurd rfl (hx s)
    | jint n => rfl
    | jlist l => rfl
    | jother => rfl
  | cons s tail ih =>
    intro x rest h hx
    have hs : urlMatches s = true := h s (List.mem_cons_self s tail)
    rw [List.map_cons, List.cons_append, check_seeds]
    dsimp only [is_valid_url]
    rw [if_pos hs]
    exact ih x rest (fun y hy => h y (List.mem_cons_of_mem s hy)) hx

/-- Claim C4 (amended): `validate_config` raises the URL error whenever
`seed_urls` is absent; with `seed_urls` present, it raises the
count-type error when the count key is absent, its value is not an
integer, or the integer is ≤ 0, and the out-of-range error when the
integer exceeds 200; with a count in [1,200] it raises the URL error
when the seed value is not a list, an empty list, or a list of strings
with an entry not matching http(s)://, while a non-string entry (after
any matching string entries) raises TypeError instead of the URL
error; on a valid configuration the seed list and count are returned
unchanged.  All of this is decided by the pure config value alone — the
function performs no fetch, so every raise precedes any crawling side
effect. -/
theorem claim4_validate_config :
    (∀ t, validate_config ⟨none, t⟩ = Except.error ScrapErr.incorrectURL)
    ∧ (∀ sv, validate_config ⟨some sv, none⟩
        = Except.error ScrapErr.incorrectNumber)
    ∧ (∀ sv v, (∀ n : Int, v ≠ JVal.jint n) →
        validate_config ⟨some sv, some v⟩
          = Except.error ScrapErr.incorrectNumber)
    ∧ (∀ sv (n : Int), n ≤ 0 →
        validate_config ⟨some sv, some (JVal.jint n)⟩
          = Except.error ScrapErr.incorrectNumber)
    ∧ (∀ sv (n : Int), 200 < n →
        validate_config ⟨some sv, some (JVal.jint n)⟩
          = Except.error ScrapErr.numberOutOfRange)
    ∧ (∀ v (n : Int), 0 < n → n ≤ 200 → (∀ l, v ≠ JVal.jlist l) →
        validate_config ⟨some v, some (JVal.jint n)⟩
          = Except.error ScrapErr.incorrectURL)
    ∧ (∀ n : Int, 0 < n → n ≤ 200 →
        validate_config ⟨some (JVal.jlist []), some (JVal.jint n)⟩
          = Except.error ScrapErr.incorrectURL)
    ∧ (∀ (ss : List String) (n : Int), 0 < n → n ≤ 200 → ss ≠ [] →
        (∃ s ∈ ss, urlMatches s = false) →
        validate_config ⟨some (JVal.jlist (ss.map JVal.jstr)),
            some (JVal.jint n)⟩
          = Except.error ScrapErr.incorrectURL)
    ∧ (∀ (ss : List String) (x : JVal) (rest : List JVal) (n : Int),
        0 < n → n ≤ 200 → (∀ s ∈ ss, urlMatches s = true) →
        (∀ s, x ≠ JVal.jstr s) →
        validate_config ⟨some (JVal.jlist (ss.map JVal.jstr ++ x :: rest)),
            some (JVal.jint n)⟩
          = Except.error ScrapErr.typeError)
    ∧ (∀ (ss : List String) (n : Int), 0 < n → n ≤ 200 → ss ≠ [] →
        (∀ s ∈ ss, urlMatches s = true) →
        validate_config ⟨some (JVal.jlist (ss.map JVal.jstr)),
            some (JVal.jint n)⟩
          = Except.ok (JVal.jlist (ss.map JVal.jstr), n)) := by
  refine ⟨fun t => rfl, fun sv => rfl, ?_, ?_, ?_, ?_, ?_, ?_, ?_, ?_⟩
  · intro sv v hv
    cases v with
    | jint n => exact absurd rfl (hv n)
    | jstr s => rfl
    | jlist l => rfl
    | jother => rfl
  · intro sv n hle
    rw [validate_config]
    dsimp only
    rw [if_pos hle]
  · intro sv n hgt
    rw [validate_config]
    dsimp only
    rw [if_neg (by omega), if_pos hgt]
  · intro v n hpos hle hv
    rw [validate_config]
    dsimp only
    rw [if_neg (by omega), if_neg (by omega)]
    cases v with
    | jlist l => exact absurd rfl (hv l)
    | jint m => rfl
    | jstr s => rfl
    | jother => rfl
  · intro n hpos hle
    rw [validate_config]
    dsimp only
    rw [if_neg (by omega), if_neg (by omega)]
    rfl
  · intro ss n hpos hle hne hbad
    rw [validate_config]
    dsimp only
    rw [if_neg (by omega), if_neg (by omega)]
    have hnemp : ((ss.map JVal.jstr).isEmpty) = false := by
      cases ss with
      | nil => exact absurd rfl hne
      | cons a b => rfl
    rw [hnemp, if_neg (by decide), check_seeds_first_bad ss hbad]
  · intro ss x rest n hpos hle hok hx
    rw [validate_config]
    dsimp only
    rw [if_neg (by omega), if_neg (by omega)]
    have hnemp : ((ss.map JVal.jstr ++ x :: rest).isEmpty) = false := by
      cases ss with
      | nil => rfl
      | cons a b => rfl
    rw [hnemp, if_neg (by decide), check_seeds_nonstring ss x rest hok hx]
  · intro ss n hpos hle hne hok
    rw [validate_config]
    dsimp only
    rw [if_neg (by omega), if_neg (by omega)]
    have hnemp : ((ss.map JVal.jstr).isEmpty) = false := by
      cases ss with
      | nil => exact absurd rfl hne
      | cons a b => rfl
    rw [hnemp, if_neg (by decide), check_seeds_all_ok ss hok]

/-- Claim C4 witness: concrete instantiations — a valid config returns
its seeds and count unchanged; a zero count raises the count-type
error; a count of 300 raises the out-of-range error; a seed list with a
non-matching string raises the URL error. -/
theorem claim4_witness :
    validate_config ⟨some (JVal.jlist [JVal.jstr "http://a", JVal.jstr
        "https://b"]), some (JVal.jint 2)⟩
      = Except.ok (JVal.jlist [JVal.jstr "http://a", JVal.jstr "https://b"], 2)
    ∧ validate_config ⟨some (JVal.jlist [JVal.jstr "http://a"]),
        some (JVal.jint 0)⟩ = Except.error ScrapErr.incorrectNumber
    ∧ validate_config ⟨some (JVal.jlist [JVal.jstr "http://a"]),
        some (JVal.jint 300)⟩ = Except.error ScrapErr.numberOutOfRange
    ∧ validate_config ⟨some (JVal.jlist [JVal.jstr "ftp://a"]),
        some (JVal.jint 2)⟩ = Except.error ScrapErr.incorrectURL :=
  ⟨claim4_validate_config.2.2.2.2.2.2.2.2.2 ["http://a", "https://b"] 2
      (by decide) (by decide) (by decide) (by decide),
   claim4_validate_config.2.2.2.1 (JVal.jlist [JVal.jstr "http://a"]) 0
      (by decide),
   claim4_validate_config.2.2.2.2.1 (JVal.jlist [JVal.jstr "http://a"]) 300
      (by decide),
   claim4_validate_config.2.2.2.2.2.2.2.1 ["ftp://a"] 2 (by decide)
      (by decide) (by decide) ⟨"ftp://a", by decide, by decide⟩⟩
